import Mathlib

/-!
Verification development for keylightd (`src/main.rs`), an activity-driven
keyboard-backlight daemon. The embedding below translates the fade engine
(`fade_to`, main.rs lines 42-76) and one iteration of the control loop
(`main`, lines 131-159) into executable Lean definitions. Machine integers
(`u8`) are modelled as `Nat` with explicit `% 256` where the source performs
u8 arithmetic. Fallible EC commands are modelled by an oracle `ok : Nat → Bool`
giving the success of the i-th command issued, and results carry an explicit
error case.
-/

namespace Keylightd

/-- Modelled from the spec: LED identifiers (`LedId` in the `command` module,
which is not part of the provided sources); only `POWER` is used by `main.rs`. -/
inductive LedId where
  | POWER
deriving DecidableEq, Repr

/-- Modelled from the spec: LED mode flags (`LedFlags` in the `command` module,
not part of the provided sources); `NONE` and `AUTO` are the modes used. -/
inductive LedFlags where
  | NONE
  | AUTO
deriving DecidableEq, Repr

/-- Modelled from the spec: per-channel LED brightness bytes (`LedBrightnesses`
in the `command` module, not part of the provided sources). The spec fixes only
that the default is all-zero and that the value is ignored for modes NONE/AUTO;
the channel count is not specified, so four zero channels stand in for it. -/
structure LedBrightnesses where
  channels : List Nat
deriving DecidableEq, Repr

/-- Modelled from the spec: the all-zero default brightness value. -/
def LedBrightnesses.default : LedBrightnesses := ⟨List.replicate 4 0⟩

/-- Modelled from the spec: the response of `GetKeyboardBacklight`. Both fields
are u8 in the protocol; `main.rs` line 44 tests `enabled != 0`. -/
structure KeyboardBacklightResp where
  enabled : Nat
  percent : Nat
deriving DecidableEq, Repr

/-- Modelled from the spec: the three typed EC requests issued by `main.rs`
(`GetKeyboardBacklight`, `SetKeyboardBacklight`, `LedControl` in the `command`
module, not part of the provided sources). Per spec section 4.2 the command
layer performs no range validation on `percent`. -/
inductive Cmd where
  | get
  | setBacklight (percent : Nat)
  | setLed (id : LedId) (flags : LedFlags) (brightness : LedBrightnesses)
deriving DecidableEq, Repr

/-- Outcome of a fade: normal return, abort at the i-th issued command
(counting the initial `get` as command 0), or fuel exhaustion (an artifact of
the bounded model, proved unreachable for u8 inputs). -/
inductive FadeResult where
  | ok
  | err (i : Nat)
  | fuelExhausted
deriving DecidableEq, Repr

/-- Effective current brightness, main.rs line 44:
`let mut cur = if resp.enabled != 0 { resp.percent } else { 0 };` -/
def effectiveCurrent (resp : KeyboardBacklightResp) : Nat :=
  if resp.enabled ≠ 0 then resp.percent else 0

/-- LED command emitted by the body of the fade loop for the freshly updated
`cur` value, main.rs lines 52-69: when `power` is set, `cur == 0` turns the
power LED off (`NONE`) and `cur == 1` restores it to `AUTO`. -/
def ledCmdFor (power : Bool) (v : Nat) : Option Cmd :=
  if power then
    if v = 0 then some (Cmd.setLed LedId.POWER LedFlags.NONE LedBrightnesses.default)
    else if v = 1 then some (Cmd.setLed LedId.POWER LedFlags.AUTO LedBrightnesses.default)
    else none
  else none

/-- The `while cur != target` loop of `fade_to`, main.rs lines 45-74. `cur` is
a u8, so the decrement and increment are modelled as `(cur + 255) % 256` and
`(cur + 1) % 256`. Per iteration: update `cur` one unit toward `target`
(lines 46-50), issue the boundary LED command if applicable (lines 52-69),
then issue `SetKeyboardBacklight(cur)` (line 71). `ok i` tells whether the
i-th command issued by the surrounding `fade_to` call succeeds; the first
failing command aborts the fade (the `?` operator). `fuel` bounds the
iteration count of the model; 256 suffices for all u8 inputs. The 3 ms
inter-step sleep (line 73) has no observable effect in this model. -/
def fadeLoop (ok : Nat → Bool) (power : Bool) (target : Nat) :
    Nat → Nat → Nat → List Cmd × FadeResult
  | 0, cur, _idx =>
    if cur = target then ([], FadeResult.ok) else ([], FadeResult.fuelExhausted)
  | fuel + 1, cur, idx =>
    if cur = target then ([], FadeResult.ok)
    else
      let cur' := if target < cur then (cur + 255) % 256 else (cur + 1) % 256
      match ledCmdFor power cur' with
      | some l =>
        if ok idx then
          if ok (idx + 1) then
            let r := fadeLoop ok power target fuel cur' (idx + 2)
            (l :: Cmd.setBacklight cur' :: r.1, r.2)
          else ([l, Cmd.setBacklight cur'], FadeResult.err (idx + 1))
        else ([l], FadeResult.err idx)
      | none =>
        if ok idx then
          let r := fadeLoop ok power target fuel cur' (idx + 1)
          (Cmd.setBacklight cur' :: r.1, r.2)
        else ([Cmd.setBacklight cur'], FadeResult.err idx)

/-- The whole of `fade_to`, main.rs lines 42-76: issue `GetKeyboardBacklight`
(line 43, command index 0), compute the effective current (line 44), then run
the fade loop. Returns the list of EC commands issued, in order, including a
final failing command when the oracle reports a failure. -/
def fade_to (ok : Nat → Bool) (resp : KeyboardBacklightResp) (power : Bool)
    (target : Nat) : List Cmd × FadeResult :=
  if ok 0 then
    let r := fadeLoop ok power target 256 (effectiveCurrent resp) 1
    (Cmd.get :: r.1, r.2)
  else ([Cmd.get], FadeResult.err 0)

/-- The all-success oracle: every EC command succeeds. -/
def allOk : Nat → Bool := fun _ => true

/-- Distance `|c - t|` on naturals. -/
def dist (c t : Nat) : Nat := if c ≤ t then t - c else c - t

/-- The intended sequence of `cur` values of a fade from `c` to `t`: one unit
per step, strictly monotonic, ending at `t` (empty when `c = t`). -/
def rampList (c t : Nat) : List Nat :=
  if c ≤ t then List.range' (c + 1) (t - c) else (List.range' t (c - t)).reverse

/-- Commands issued by one successful iteration of the fade loop whose updated
`cur` value is `v`: the boundary LED command, if any, then the backlight write. -/
def stepCmds (power : Bool) (v : Nat) : List Cmd :=
  (ledCmdFor power v).toList ++ [Cmd.setBacklight v]

/-- Percent arguments of the `SetKeyboardBacklight` commands in a trace. -/
def setPercents (tr : List Cmd) : List Nat :=
  tr.filterMap fun c =>
    match c with
    | Cmd.setBacklight p => some p
    | _ => none

/-- Flags of the `SetLed` commands in a trace. -/
def ledFlagsIssued (tr : List Cmd) : List LedFlags :=
  tr.filterMap fun c =>
    match c with
    | Cmd.setLed _ f _ => some f
    | _ => none

/-- Boundary LED flag associated with a `cur` value, per main.rs lines 56-68. -/
def boundaryLed (v : Nat) : Option LedFlags :=
  if v = 0 then some LedFlags.NONE
  else if v = 1 then some LedFlags.AUTO
  else none

/-! The control loop, main.rs lines 131-159. One iteration of the `loop` is a
pure step function over the mutable state `(active, max_brightness)`
(lines 131 and 133), taking as input the poll outcome and the EC responses for
this iteration. -/

/-- Mutable state of the control loop: `active` (line 131) and
`max_brightness` (line 133). -/
structure LoopState where
  active : Bool
  max_brightness : Nat
deriving DecidableEq, Repr

/-- State at loop entry, main.rs lines 131-133: `active = false` (Idle) and
`max_brightness = args.brightness`. -/
def initialLoopState (brightness : Nat) : LoopState :=
  { active := false, max_brightness := brightness }

/-- Environment of one loop iteration: whether the poll returned no events
(`events.is_empty()`, line 145), the outcome and response of the
persist-brightness `GetKeyboardBacklight` (lines 140-143) should it be issued,
and the oracle and `GetKeyboardBacklight` response for a `fade_to` call should
one be made. -/
structure IterInput where
  eventsEmpty : Bool
  resampleOk : Bool
  resampleResp : KeyboardBacklightResp
  fadeOk : Nat → Bool
  fadeResp : KeyboardBacklightResp

/-- Observable events of one loop iteration: an EC command issued directly by
the loop body, a `fade_to` call (with its target and the trace and result of
the commands it issued), or a `thread::sleep` of the given milliseconds. -/
inductive LoopEvent where
  | ecCmd (c : Cmd)
  | fadeCall (power : Bool) (target : Nat) (trace : List Cmd) (result : FadeResult)
  | sleepMs (ms : Nat)
deriving DecidableEq, Repr

/-- Errors surfaced by one loop iteration via the `?` operator: failure of the
persist-brightness read (line 141) or of a command inside `fade_to`
(lines 147 and 152); `fadeFuel` is the unreachable fuel artifact. -/
inductive LoopError where
  | resample
  | fade (i : Nat)
  | fadeFuel
deriving DecidableEq, Repr

/-- Lines 145-158 of main.rs, after the persist resample: on a timeout with no
events, fade down to 0 if active (lines 146-148); on activity, fade up to
`max_brightness` if idle (lines 151-153) and then sleep 500 ms (line 157). -/
def loopBody (power : Bool) (active : Bool) (mb : Nat) (inp : IterInput) :
    List LoopEvent × Except LoopError LoopState :=
  if inp.eventsEmpty then
    if active then
      match fade_to inp.fadeOk inp.fadeResp power 0 with
      | (tr, FadeResult.ok) =>
        ([LoopEvent.fadeCall power 0 tr FadeResult.ok], Except.ok ⟨false, mb⟩)
      | (tr, FadeResult.err i) =>
        ([LoopEvent.fadeCall power 0 tr (FadeResult.err i)],
          Except.error (LoopError.fade i))
      | (tr, FadeResult.fuelExhausted) =>
        ([LoopEvent.fadeCall power 0 tr FadeResult.fuelExhausted],
          Except.error LoopError.fadeFuel)
    else ([], Except.ok ⟨active, mb⟩)
  else
    if active then ([LoopEvent.sleepMs 500], Except.ok ⟨active, mb⟩)
    else
      match fade_to inp.fadeOk inp.fadeResp power mb with
      | (tr, FadeResult.ok) =>
        ([LoopEvent.fadeCall power mb tr FadeResult.ok, LoopEvent.sleepMs 500],
          Except.ok ⟨true, mb⟩)
      | (tr, FadeResult.err i) =>
        ([LoopEvent.fadeCall power mb tr (FadeResult.err i)],
          Except.error (LoopError.fade i))
      | (tr, FadeResult.fuelExhausted) =>
        ([LoopEvent.fadeCall power mb tr FadeResult.fuelExhausted],
          Except.error LoopError.fadeFuel)

/-- One full iteration of the control loop, main.rs lines 138-158 (the poll
outcome is the input `inp.eventsEmpty`). Lines 140-143: while active with
`persist_brightness` set, read the live backlight state and overwrite
`max_brightness` with the reported `percent` before anything else. The
returned event list holds everything observable the iteration did, in order;
the `Except` value is the iteration's effect on the loop state or the error it
propagates. -/
def loopStep (power persist : Bool) (s : LoopState) (inp : IterInput) :
    List LoopEvent × Except LoopError LoopState :=
  if s.active && persist then
    if inp.resampleOk then
      let r := loopBody power s.active inp.resampleResp.percent inp
      (LoopEvent.ecCmd Cmd.get :: r.1, r.2)
    else ([LoopEvent.ecCmd Cmd.get], Except.error LoopError.resample)
  else loopBody power s.active s.max_brightness inp

/-- Targets of the `fade_to` calls recorded in an event list, in order. -/
def fadeTargets (evts : List LoopEvent) : List Nat :=
  evts.filterMap fun e =>
    match e with
    | LoopEvent.fadeCall _ t _ _ => some t
    | _ => none

/-- Trace of EC commands issued by a fade in which every command succeeds. -/
def fadeTrace (resp : KeyboardBacklightResp) (power : Bool) (target : Nat) :
    List Cmd :=
  (fade_to allOk resp power target).1

/-- Percent arguments of the `SetKeyboardBacklight` commands issued by a fade
in which every EC command succeeds. -/
def fadePercents (resp : KeyboardBacklightResp) (power : Bool) (target : Nat) :
    List Nat :=
  setPercents (fade_to allOk resp power target).1

/-- The `SetLed` commands of a trace, in order. -/
def ledCmdsIssued (tr : List Cmd) : List Cmd :=
  tr.filter fun c =>
    match c with
    | Cmd.setLed _ _ _ => true
    | _ => false

/-- Oracle under which the first two EC commands succeed and the third fails;
used to exhibit a concrete aborted fade. -/
def failAfterTwo : Nat → Bool := fun i => decide (i < 2)

/-! Basic facts about `dist` and `rampList`. -/

theorem dist_eq_zero_iff {c t : Nat} : dist c t = 0 ↔ c = t := by
  unfold dist; split <;> omega

theorem rampList_self (c : Nat) : rampList c c = [] := by
  simp [rampList]

theorem rampList_up {c t : Nat} (h : c < t) :
    rampList c t = (c + 1) :: rampList (c + 1) t := by
  have h1 : c ≤ t := Nat.le_of_lt h
  have h2 : c + 1 ≤ t := h
  have ht : t - c = (t - (c + 1)) + 1 := by omega
  rw [rampList, if_pos h1, ht, List.range'_succ, rampList, if_pos h2]

theorem rampList_down {c t : Nat} (h : t < c) :
    rampList c t = (c - 1) :: rampList (c - 1) t := by
  have h1 : ¬ c ≤ t := by omega
  have ht : c - t = (c - t - 1) + 1 := by omega
  rw [rampList, if_neg h1, ht, List.range'_1_concat, List.reverse_append,
    List.reverse_singleton, List.singleton_append]
  have hhead : t + (c - t - 1) = c - 1 := by omega
  have htail : (List.range' t (c - t - 1)).reverse = rampList (c - 1) t := by
    by_cases h2 : c - 1 ≤ t
    · have hz : c - t - 1 = 0 := by omega
      have hz2 : t - (c - 1) = 0 := by omega
      rw [hz, rampList, if_pos h2, hz2]
      simp
    · rw [rampList, if_neg h2]
      have harg : c - t - 1 = c - 1 - t := by omega
      rw [harg]
  rw [hhead, htail]

theorem length_rampList (c t : Nat) : (rampList c t).length = dist c t := by
  unfold rampList dist; split <;> simp

theorem mem_rampList {c t x : Nat} :
    x ∈ rampList c t ↔ (c < t ∧ c + 1 ≤ x ∧ x ≤ t) ∨ (t < c ∧ t ≤ x ∧ x ≤ c - 1) := by
  unfold rampList
  split <;> simp [List.mem_range'_1] <;> omega

theorem nodup_rampList (c t : Nat) : (rampList c t).Nodup := by
  unfold rampList
  split
  · exact List.nodup_range' _ _
  · exact List.nodup_reverse.mpr (List.nodup_range' _ _)

theorem getElem_rampList {c t : Nat} (i : Nat) (h : i < (rampList c t).length) :
    (rampList c t).get ⟨i, h⟩ = if c ≤ t then c + 1 + i else c - 1 - i := by
  rw [List.get_eq_getElem]
  by_cases hct : c ≤ t
  · simp only [rampList, if_pos hct] at h ⊢
    simp only [List.getElem_range', Nat.one_mul]
  · simp only [rampList, if_neg hct] at h ⊢
    rw [List.getElem_reverse]
    simp only [List.getElem_range', Nat.one_mul, List.length_range']
    simp only [List.length_reverse, List.length_range'] at h
    omega

theorem getLast?_rampList {c t : Nat} (h : c ≠ t) :
    (rampList c t).getLast? = some t := by
  have hlen' : (rampList c t).length = if c ≤ t then t - c else c - t := by
    rw [length_rampList]; rfl
  have hpos : 0 < (rampList c t).length := by
    rw [hlen']; split <;> omega
  rw [List.getLast?_eq_getElem?, List.getElem?_eq_getElem (by omega)]
  have hg := getElem_rampList (c := c) (t := t) ((rampList c t).length - 1) (by omega)
  rw [List.get_eq_getElem] at hg
  rw [hg, hlen']
  rcases Nat.lt_or_ge c t with hlt | hge
  · have hct : c ≤ t := Nat.le_of_lt hlt
    simp only [if_pos hct]
    congr 1
    omega
  · have hct : ¬ c ≤ t := by omega
    simp only [if_neg hct]
    congr 1
    omega

/-! Helper facts about `dist`. -/

theorem dist_down {c t : Nat} (h : t < c) : dist c t = dist (c - 1) t + 1 := by
  unfold dist; split <;> split <;> omega

theorem dist_up {c t : Nat} (h : c < t) : dist c t = dist (c + 1) t + 1 := by
  unfold dist; split <;> split <;> omega

theorem dist_le_255 {c t : Nat} (hc : c < 256) (ht : t < 256) : dist c t ≤ 255 := by
  unfold dist; split <;> omega

/-! Characterization of the fade loop when every command succeeds. -/

theorem fadeLoop_at_target (ok : Nat → Bool) (power : Bool) {target fuel idx : Nat} :
    fadeLoop ok power target fuel target idx = ([], FadeResult.ok) := by
  cases fuel <;> simp [fadeLoop]

theorem fadeLoop_allOk (power : Bool) (target : Nat) :
    ∀ fuel cur idx, cur < 256 → target < 256 → dist cur target ≤ fuel →
      fadeLoop allOk power target fuel cur idx =
        ((rampList cur target).flatMap (stepCmds power), FadeResult.ok) := by
  intro fuel
  induction fuel with
  | zero =>
    intro cur idx hc ht hd
    have hct : cur = target := dist_eq_zero_iff.mp (by omega)
    subst hct
    simp [fadeLoop, rampList_self]
  | succ f ih =>
    intro cur idx hc ht hd
    by_cases hct : cur = target
    · subst hct
      simp [fadeLoop, rampList_self]
    · simp only [fadeLoop, if_neg hct]
      by_cases hdir : target < cur
      · have hcur' : (cur + 255) % 256 = cur - 1 := by
          have heq : cur + 255 = (cur - 1) + 256 := by omega
          rw [heq, Nat.add_mod_right, Nat.mod_eq_of_lt (by omega)]
        rw [if_pos hdir, hcur']
        have hdd : dist (cur - 1) target ≤ f := by
          have := dist_down hdir; omega
        have hrec := ih (cur - 1) (idx + 2) (by omega) ht hdd
        have hrec' := ih (cur - 1) (idx + 1) (by omega) ht hdd
        rw [rampList_down hdir, List.flatMap_cons]
        cases hl : ledCmdFor power (cur - 1) with
        | some l =>
          simp only [allOk, if_true, hrec, stepCmds, hl, Option.toList_some]
          rfl
        | none =>
          simp only [allOk, if_true, hrec', stepCmds, hl, Option.toList_none]
          rfl
      · have hlt : cur < target := by omega
        have hcur' : (cur + 1) % 256 = cur + 1 :=
          Nat.mod_eq_of_lt (by omega)
        rw [if_neg hdir, hcur']
        have hdd : dist (cur + 1) target ≤ f := by
          have := dist_up hlt; omega
        have hrec := ih (cur + 1) (idx + 2) (by omega) ht hdd
        have hrec' := ih (cur + 1) (idx + 1) (by omega) ht hdd
        rw [rampList_up hlt, List.flatMap_cons]
        cases hl : ledCmdFor power (cur + 1) with
        | some l =>
          simp only [allOk, if_true, hrec, stepCmds, hl, Option.toList_some]
          rfl
        | none =>
          simp only [allOk, if_true, hrec', stepCmds, hl, Option.toList_none]
          rfl

theorem fade_to_allOk (resp : KeyboardBacklightResp) (power : Bool) (target : Nat)
    (hc : effectiveCurrent resp < 256) (ht : target < 256) :
    fade_to allOk resp power target =
      (Cmd.get :: (rampList (effectiveCurrent resp) target).flatMap (stepCmds power),
        FadeResult.ok) := by
  unfold fade_to
  have hd : dist (effectiveCurrent resp) target ≤ 256 := by
    have := dist_le_255 hc ht; omega
  rw [fadeLoop_allOk power target 256 (effectiveCurrent resp) 1 hc ht hd]
  rfl

/-! Extraction of the backlight percents and LED flags from a trace. -/

theorem setPercents_get_cons (tr : List Cmd) :
    setPercents (Cmd.get :: tr) = setPercents tr := by
  simp [setPercents]

theorem ledFlagsIssued_get_cons (tr : List Cmd) :
    ledFlagsIssued (Cmd.get :: tr) = ledFlagsIssued tr := by
  simp [ledFlagsIssued]

theorem setPercents_stepCmds (power : Bool) (v : Nat) :
    setPercents (stepCmds power v) = [v] := by
  cases power
  · simp [stepCmds, ledCmdFor, setPercents]
  · by_cases h0 : v = 0
    · simp [stepCmds, ledCmdFor, setPercents, h0]
    · by_cases h1 : v = 1 <;> simp [stepCmds, ledCmdFor, setPercents, h0, h1]

theorem setPercents_flatMap (power : Bool) (l : List Nat) :
    setPercents (l.flatMap (stepCmds power)) = l := by
  induction l with
  | nil => simp [setPercents]
  | cons v l ih =>
    have happ : setPercents (stepCmds power v ++ l.flatMap (stepCmds power)) =
        setPercents (stepCmds power v) ++ setPercents (l.flatMap (stepCmds power)) := by
      unfold setPercents; rw [List.filterMap_append]
    rw [List.flatMap_cons, happ, setPercents_stepCmds, ih, List.singleton_append]

theorem ledFlagsIssued_stepCmds (power : Bool) (v : Nat) :
    ledFlagsIssued (stepCmds power v) =
      (if power then boundaryLed v else none).toList := by
  cases power
  · simp [stepCmds, ledCmdFor, ledFlagsIssued]
  · by_cases h0 : v = 0
    · simp [stepCmds, ledCmdFor, ledFlagsIssued, boundaryLed, h0]
    · by_cases h1 : v = 1 <;>
        simp [stepCmds, ledCmdFor, ledFlagsIssued, boundaryLed, h0, h1]

theorem ledFlagsIssued_flatMap (power : Bool) (l : List Nat) :
    ledFlagsIssued (l.flatMap (stepCmds power)) =
      if power then l.filterMap boundaryLed else [] := by
  induction l with
  | nil => cases power <;> simp [ledFlagsIssued]
  | cons v l ih =>
    have happ : ledFlagsIssued (stepCmds power v ++ l.flatMap (stepCmds power)) =
        ledFlagsIssued (stepCmds power v) ++ ledFlagsIssued (l.flatMap (stepCmds power)) := by
      unfold ledFlagsIssued; rw [List.filterMap_append]
    rw [List.flatMap_cons, happ, ledFlagsIssued_stepCmds, ih]
    cases power
    · simp
    · simp only [if_true, List.filterMap_cons]
      cases hb : boundaryLed v <;> simp [hb]

theorem getElem?_rampList {c t i : Nat} (h : i < dist c t) :
    (rampList c t)[i]? = some (if c ≤ t then c + 1 + i else c - 1 - i) := by
  have hlen : i < (rampList c t).length := by rw [length_rampList]; exact h
  rw [List.getElem?_eq_getElem hlen]
  have hg := getElem_rampList i hlen
  rw [List.get_eq_getElem] at hg
  exact congrArg some hg

theorem fadePercents_eq_rampList (resp : KeyboardBacklightResp) (power : Bool)
    (target : Nat) (hc : effectiveCurrent resp < 256) (ht : target < 256) :
    fadePercents resp power target = rampList (effectiveCurrent resp) target := by
  unfold fadePercents
  rw [fade_to_allOk resp power target hc ht]
  simp only []
  rw [setPercents_get_cons, setPercents_flatMap]

/-! Claim theorems. -/

/-- C1: for every effective current `c` and target `t`, both in `[0,100]`, and
assuming every EC command succeeds, `fade_to` issues exactly `|c - t|`
`SetKeyboardBacklight` calls whose percent arguments form a strictly monotonic
sequence moving one unit per step from `c` toward `t`, ending at `t`. The
second conjunct pins the i-th percent to `c + 1 + i` (fading up) or
`c - 1 - i` (fading down), which is exactly the one-unit-per-step strictly
monotonic ramp; the third conjunct says the ramp ends at `t`. -/
theorem C1_fade_monotonic (resp : KeyboardBacklightResp) (power : Bool)
    (target : Nat) (hc : effectiveCurrent resp ≤ 100) (ht : target ≤ 100) :
    (fadePercents resp power target).length = dist (effectiveCurrent resp) target ∧
    (∀ i, i < dist (effectiveCurrent resp) target →
      (fadePercents resp power target)[i]? =
        some (if effectiveCurrent resp ≤ target then effectiveCurrent resp + 1 + i
          else effectiveCurrent resp - 1 - i)) ∧
    (effectiveCurrent resp ≠ target →
      (fadePercents resp power target).getLast? = some target) := by
  have hchar := fadePercents_eq_rampList resp power target (by omega) (by omega)
  refine ⟨?_, ?_, ?_⟩
  · rw [hchar, length_rampList]
  · intro i h
    rw [hchar]
    exact getElem?_rampList h
  · intro hne
    rw [hchar]
    exact getLast?_rampList hne

/-- C1 witness: a concrete fade from effective current 2 up to target 5. -/
theorem C1_fade_monotonic_witness :
    effectiveCurrent ⟨1, 2⟩ ≤ 100 ∧ (5 : Nat) ≤ 100 ∧
    ((fadePercents ⟨1, 2⟩ false 5).length = dist (effectiveCurrent ⟨1, 2⟩) 5 ∧
      (∀ i, i < dist (effectiveCurrent ⟨1, 2⟩) 5 →
        (fadePercents ⟨1, 2⟩ false 5)[i]? =
          some (if effectiveCurrent ⟨1, 2⟩ ≤ 5 then effectiveCurrent ⟨1, 2⟩ + 1 + i
            else effectiveCurrent ⟨1, 2⟩ - 1 - i)) ∧
      (effectiveCurrent ⟨1, 2⟩ ≠ 5 →
        (fadePercents ⟨1, 2⟩ false 5).getLast? = some 5)) :=
  ⟨by decide, by decide, C1_fade_monotonic ⟨1, 2⟩ false 5 (by decide) (by decide)⟩

/-- C7: for every call of `fade_to` whose effective current and target both
lie in `[0,100]`, every percent argument passed to `SetKeyboardBacklight`
during the fade lies in `[0,100]` (the lower bound is inherent to `Nat`; the
`Cmd` layer, modelled from the spec, performs no range validation). -/
theorem C7_percents_in_range (resp : KeyboardBacklightResp) (power : Bool)
    (target : Nat) (hc : effectiveCurrent resp ≤ 100) (ht : target ≤ 100) :
    ∀ p ∈ setPercents (fade_to allOk resp power target).1, p ≤ 100 := by
  have hchar := fadePercents_eq_rampList resp power target (by omega) (by omega)
  unfold fadePercents at hchar
  intro p hp
  rw [hchar] at hp
  rcases mem_rampList.mp hp with ⟨h1, h2, h3⟩ | ⟨h1, h2, h3⟩ <;> omega

/-- C7 witness: a concrete fade from effective current 100 down to 0. -/
theorem C7_percents_in_range_witness :
    effectiveCurrent ⟨1, 100⟩ ≤ 100 ∧ (0 : Nat) ≤ 100 ∧
    ∀ p ∈ setPercents (fade_to allOk ⟨1, 100⟩ true 0).1, p ≤ 100 :=
  ⟨by decide, by decide, C7_percents_in_range ⟨1, 100⟩ true 0 (by decide) (by decide)⟩

/-- C9: for every pair of u8 values of effective current and target (the full
`0..=255` range), the fade loop terminates (result `ok`, never fuel
exhaustion) after exactly `|current - target|` iterations — one
`SetKeyboardBacklight` per iteration — and the i-th written percent is exactly
`current ± (i + 1)`, so the u8 increment and decrement never wrap around. -/
theorem C9_fade_terminates (resp : KeyboardBacklightResp) (power : Bool)
    (target : Nat) (hc : effectiveCurrent resp < 256) (ht : target < 256) :
    (fade_to allOk resp power target).2 = FadeResult.ok ∧
    (fadePercents resp power target).length = dist (effectiveCurrent resp) target ∧
    (∀ i, i < dist (effectiveCurrent resp) target →
      (fadePercents resp power target)[i]? =
        some (if effectiveCurrent resp ≤ target then effectiveCurrent resp + 1 + i
          else effectiveCurrent resp - 1 - i)) := by
  have hchar := fadePercents_eq_rampList resp power target hc ht
  refine ⟨?_, ?_, ?_⟩
  · rw [fade_to_allOk resp power target hc ht]
  · rw [hchar, length_rampList]
  · intro i h
    rw [hchar]
    exact getElem?_rampList h

/-- C9 witness: a concrete fade using percents above 100 (u8 values outside
the validated range), from effective current 255 down to 253. -/
theorem C9_fade_terminates_witness :
    effectiveCurrent ⟨1, 255⟩ < 256 ∧ (253 : Nat) < 256 ∧
    ((fade_to allOk ⟨1, 255⟩ false 253).2 = FadeResult.ok ∧
      (fadePercents ⟨1, 255⟩ false 253).length = dist (effectiveCurrent ⟨1, 255⟩) 253 ∧
      (∀ i, i < dist (effectiveCurrent ⟨1, 255⟩) 253 →
        (fadePercents ⟨1, 255⟩ false 253)[i]? =
          some (if effectiveCurrent ⟨1, 255⟩ ≤ 253 then effectiveCurrent ⟨1, 255⟩ + 1 + i
            else effectiveCurrent ⟨1, 255⟩ - 1 - i))) :=
  ⟨by decide, by decide, C9_fade_terminates ⟨1, 255⟩ false 253 (by decide) (by decide)⟩

/-- C4 counterexample: with the effective current already equal to the target
(current 30, target 30), `fade_to` still issues one EC command — the initial
`GetKeyboardBacklight` read of main.rs line 43 — so it does not issue zero
commands of any kind as the claim states. -/
theorem C4_counterexample :
    (fade_to allOk ⟨1, 30⟩ false 30).1 = [Cmd.get] ∧
    (fade_to allOk ⟨1, 30⟩ false 30).1.length ≠ 0 := by
  constructor
  · rfl
  · decide

/-- C4 amended: for every call of `fade_to` in which the effective current
equals the target (and the initial read succeeds), `fade_to` issues exactly
one EC command, the `GetKeyboardBacklight` state read, and in particular no
`SetKeyboardBacklight` and no `SetLed` command. -/
theorem C4_amended_get_only (ok : Nat → Bool) (resp : KeyboardBacklightResp)
    (power : Bool) (target : Nat) (h0 : ok 0 = true)
    (h : effectiveCurrent resp = target) :
    fade_to ok resp power target = ([Cmd.get], FadeResult.ok) := by
  unfold fade_to
  rw [h0, if_pos rfl, h, fadeLoop_at_target]

/-- C4 witness: a concrete no-op fade at current = target = 55. -/
theorem C4_amended_get_only_witness :
    allOk 0 = true ∧ effectiveCurrent ⟨1, 55⟩ = 55 ∧
    fade_to allOk ⟨1, 55⟩ true 55 = ([Cmd.get], FadeResult.ok) :=
  ⟨by decide, by decide, C4_amended_get_only allOk ⟨1, 55⟩ true 55 (by decide) (by decide)⟩

/-! LED-call characterization lemmas for claim C3. -/

theorem boundaryLed_eq_some_NONE (v : Nat) :
    boundaryLed v = some LedFlags.NONE ↔ v = 0 := by
  unfold boundaryLed
  by_cases h0 : v = 0 <;> by_cases h1 : v = 1 <;> simp [h0, h1]

theorem boundaryLed_eq_some_AUTO (v : Nat) :
    boundaryLed v = some LedFlags.AUTO ↔ v = 1 := by
  unfold boundaryLed
  by_cases h0 : v = 0 <;> by_cases h1 : v = 1 <;> simp [h0, h1]

theorem count_boundary_zero {l : List Nat} {f : LedFlags} {w : Nat}
    (hw : ∀ v, boundaryLed v = some f ↔ v = w) (h : w ∉ l) :
    (l.filterMap boundaryLed).count f = 0 := by
  induction l with
  | nil => rfl
  | cons v l ih =>
    have hv : v ≠ w := fun hvw => h (hvw ▸ List.mem_cons_self v l)
    have hl : w ∉ l := fun hm => h (List.mem_cons_of_mem _ hm)
    rw [List.filterMap_cons]
    cases hb : boundaryLed v with
    | none => exact ih hl
    | some g =>
      have hg : f ≠ g := fun hgf => hv ((hw v).mp (hgf ▸ hb))
      rw [List.count_cons, ih hl]
      simp [Ne.symm hg]

theorem count_boundary {l : List Nat} {f : LedFlags} {w : Nat}
    (hw : ∀ v, boundaryLed v = some f ↔ v = w) (hnd : l.Nodup) :
    (l.filterMap boundaryLed).count f = if w ∈ l then 1 else 0 := by
  induction l with
  | nil => simp
  | cons v l ih =>
    rcases List.nodup_cons.mp hnd with ⟨hv, hl⟩
    rw [List.filterMap_cons]
    by_cases hvw : v = w
    · subst hvw
      rw [(hw v).mpr rfl, List.count_cons, count_boundary_zero hw hv]
      simp [List.mem_cons_self]
    · have hmem : (w ∈ v :: l) ↔ (w ∈ l) := by
        constructor
        · intro hm
          rcases List.mem_cons.mp hm with h | h
          · exact absurd h.symm hvw
          · exact h
        · exact fun hm => List.mem_cons_of_mem _ hm
      cases hb : boundaryLed v with
      | none => rw [ih hl]; simp [hmem]
      | some g =>
        have hg : f ≠ g := fun hgf => hvw (((hw v).mp (hgf ▸ hb)))
        rw [List.count_cons, ih hl]
        simp [Ne.symm hg, hmem]

theorem zero_mem_rampList {c t : Nat} : 0 ∈ rampList c t ↔ t = 0 ∧ c ≠ 0 := by
  rw [mem_rampList]; omega

theorem one_mem_rampList {c t : Nat} :
    1 ∈ rampList c t ↔ (c = 0 ∧ 1 ≤ t) ∨ (t ≤ 1 ∧ 2 ≤ c) := by
  rw [mem_rampList]; omega

theorem ledFlagsIssued_fadeTrace (resp : KeyboardBacklightResp) (power : Bool)
    (target : Nat) (hc : effectiveCurrent resp < 256) (ht : target < 256) :
    ledFlagsIssued (fadeTrace resp power target) =
      if power then (rampList (effectiveCurrent resp) target).filterMap boundaryLed
      else [] := by
  unfold fadeTrace
  rw [fade_to_allOk resp power target hc ht]
  simp only []
  rw [ledFlagsIssued_get_cons, ledFlagsIssued_flatMap]

theorem ledCmdsIssued_stepCmds (power : Bool) (v : Nat) :
    ledCmdsIssued (stepCmds power v) = (ledCmdFor power v).toList := by
  cases power
  · simp [stepCmds, ledCmdFor, ledCmdsIssued]
  · by_cases h0 : v = 0
    · simp [stepCmds, ledCmdFor, ledCmdsIssued, h0]
    · by_cases h1 : v = 1 <;> simp [stepCmds, ledCmdFor, ledCmdsIssued, h0, h1]

theorem ledCmdsIssued_flatMap (power : Bool) (l : List Nat) :
    ledCmdsIssued (l.flatMap (stepCmds power)) = l.filterMap (ledCmdFor power) := by
  induction l with
  | nil => rfl
  | cons v l ih =>
    have happ : ledCmdsIssued (stepCmds power v ++ l.flatMap (stepCmds power)) =
        ledCmdsIssued (stepCmds power v) ++ ledCmdsIssued (l.flatMap (stepCmds power)) := by
      unfold ledCmdsIssued; rw [List.filter_append]
    rw [List.flatMap_cons, happ, ledCmdsIssued_stepCmds, ih, List.filterMap_cons]
    cases hb : ledCmdFor power v <;> simp [hb]

theorem ledCmdsIssued_fadeTrace (resp : KeyboardBacklightResp) (power : Bool)
    (target : Nat) (hc : effectiveCurrent resp < 256) (ht : target < 256) :
    ledCmdsIssued (fadeTrace resp power target) =
      (rampList (effectiveCurrent resp) target).filterMap (ledCmdFor power) := by
  unfold fadeTrace
  rw [fade_to_allOk resp power target hc ht]
  simp only []
  show ledCmdsIssued (Cmd.get :: _) = _
  unfold ledCmdsIssued
  rw [List.filter_cons_of_neg (by simp)]
  exact ledCmdsIssued_flatMap power _

theorem ledCmdFor_shape {power : Bool} {v : Nat} {l : Cmd}
    (h : ledCmdFor power v = some l) :
    (l = Cmd.setLed LedId.POWER LedFlags.NONE LedBrightnesses.default ∧ v = 0) ∨
    (l = Cmd.setLed LedId.POWER LedFlags.AUTO LedBrightnesses.default ∧ v = 1) := by
  unfold ledCmdFor at h
  cases power
  · simp at h
  · by_cases h0 : v = 0
    · left
      simp only [if_true, if_pos h0, Option.some.injEq] at h
      exact ⟨h.symm, h0⟩
    · by_cases h1 : v = 1
      · right
        simp only [if_true, if_neg h0, if_pos h1, Option.some.injEq] at h
        exact ⟨h.symm, h1⟩
      · simp [h0, h1] at h

theorem ledStep_followed_by_set (power : Bool) (l : List Nat) :
    ∀ i f b, (l.flatMap (stepCmds power))[i]? = some (Cmd.setLed LedId.POWER f b) →
      (l.flatMap (stepCmds power))[i + 1]? =
        some (Cmd.setBacklight (if f = LedFlags.NONE then 0 else 1)) := by
  induction l with
  | nil => intro i f b h; simp at h
  | cons v l ih =>
    intro i f b h
    rw [List.flatMap_cons, stepCmds] at h ⊢
    cases hl : ledCmdFor power v with
    | none =>
      rw [hl] at h
      simp only [Option.toList_none, List.nil_append, List.cons_append] at h ⊢
      match i, h with
      | 0, h => simp at h
      | i + 1, h =>
        rw [List.getElem?_cons_succ] at h ⊢
        exact ih i f b h
    | some led =>
      rw [hl] at h
      simp only [Option.toList_some, List.cons_append, List.nil_append] at h ⊢
      match i, h with
      | 0, h =>
        simp only [List.getElem?_cons_zero, Option.some.injEq] at h
        subst h
        rcases ledCmdFor_shape hl with ⟨hled, hv⟩ | ⟨hled, hv⟩ <;>
          subst hv
        · injection hled with h1 h2 h3
          subst h2
          simp
        · injection hled with h1 h2 h3
          subst h2
          simp
      | 1, h => simp at h
      | i + 2, h =>
        rw [List.getElem?_cons_succ, List.getElem?_cons_succ] at h ⊢
        exact ih i f b h

theorem fadeTrace_led_adjacent (resp : KeyboardBacklightResp) (power : Bool)
    (target : Nat) (hc : effectiveCurrent resp < 256) (ht : target < 256) :
    ∀ i f b, (fadeTrace resp power target)[i]? = some (Cmd.setLed LedId.POWER f b) →
      (fadeTrace resp power target)[i + 1]? =
        some (Cmd.setBacklight (if f = LedFlags.NONE then 0 else 1)) := by
  unfold fadeTrace
  rw [fade_to_allOk resp power target hc ht]
  simp only []
  intro i f b h
  match i, h with
  | 0, h => simp at h
  | i + 1, h =>
    rw [List.getElem?_cons_succ] at h ⊢
    exact ledStep_followed_by_set power _ i f b h

/-- C3 counterexample: a fade with the power flag set, from effective current
30 up to target 50, never passes through 0 or 1 and therefore issues zero
`SetLed` calls — not exactly one `SetLed(POWER, NONE, default)` and one
`SetLed(POWER, AUTO, default)` as the claim asserts for every fade with the
power flag set. -/
theorem C3_counterexample :
    (ledFlagsIssued (fade_to allOk ⟨1, 30⟩ true 50).1).count LedFlags.NONE = 0 ∧
    (ledFlagsIssued (fade_to allOk ⟨1, 30⟩ true 50).1).count LedFlags.AUTO = 0 := by
  constructor <;> rfl

/-- C3 amended: with the power flag set, a fade issues exactly one
`SetLed(POWER, NONE, default)` call if and only if its ramp reaches 0 (target
0 from a nonzero current), exactly one `SetLed(POWER, AUTO, default)` call if
and only if its ramp passes through 1, and the `SetLed` commands it issues are
exactly the boundary commands of the visited values, each immediately followed
by the `SetKeyboardBacklight` write of the matching boundary value (0 for
`NONE`, 1 for `AUTO`); with the power flag unset no `SetLed` call occurs. -/
theorem C3_led_boundary (resp : KeyboardBacklightResp) (power : Bool)
    (target : Nat) (hc : effectiveCurrent resp < 256) (ht : target < 256) :
    (power = false → ledFlagsIssued (fadeTrace resp power target) = []) ∧
    (power = true →
      (ledFlagsIssued (fadeTrace resp power target)).count LedFlags.NONE =
        (if 0 ∈ rampList (effectiveCurrent resp) target then 1 else 0) ∧
      (ledFlagsIssued (fadeTrace resp power target)).count LedFlags.AUTO =
        (if 1 ∈ rampList (effectiveCurrent resp) target then 1 else 0)) ∧
    ((0 : Nat) ∈ rampList (effectiveCurrent resp) target ↔
      target = 0 ∧ effectiveCurrent resp ≠ 0) ∧
    ((1 : Nat) ∈ rampList (effectiveCurrent resp) target ↔
      (effectiveCurrent resp = 0 ∧ 1 ≤ target) ∨
        (target ≤ 1 ∧ 2 ≤ effectiveCurrent resp)) ∧
    ledCmdsIssued (fadeTrace resp power target) =
      (rampList (effectiveCurrent resp) target).filterMap (ledCmdFor power) ∧
    (∀ i f b, (fadeTrace resp power target)[i]? = some (Cmd.setLed LedId.POWER f b) →
      (fadeTrace resp power target)[i + 1]? =
        some (Cmd.setBacklight (if f = LedFlags.NONE then 0 else 1))) := by
  refine ⟨?_, ?_, zero_mem_rampList, one_mem_rampList,
    ledCmdsIssued_fadeTrace resp power target hc ht,
    fadeTrace_led_adjacent resp power target hc ht⟩
  · intro hp
    rw [ledFlagsIssued_fadeTrace resp power target hc ht, hp]
    simp
  · intro hp
    rw [ledFlagsIssued_fadeTrace resp power target hc ht, hp]
    simp only [if_true]
    exact ⟨count_boundary boundaryLed_eq_some_NONE (nodup_rampList _ _),
      count_boundary boundaryLed_eq_some_AUTO (nodup_rampList _ _)⟩

/-- C3 witness: a concrete power fade from effective current 3 down to 0,
which crosses both boundaries. -/
theorem C3_led_boundary_witness :
    effectiveCurrent ⟨1, 3⟩ < 256 ∧ (0 : Nat) < 256 ∧
    (((true : Bool) = false → ledFlagsIssued (fadeTrace ⟨1, 3⟩ true 0) = []) ∧
      ((true : Bool) = true →
        (ledFlagsIssued (fadeTrace ⟨1, 3⟩ true 0)).count LedFlags.NONE =
          (if 0 ∈ rampList (effectiveCurrent ⟨1, 3⟩) 0 then 1 else 0) ∧
        (ledFlagsIssued (fadeTrace ⟨1, 3⟩ true 0)).count LedFlags.AUTO =
          (if 1 ∈ rampList (effectiveCurrent ⟨1, 3⟩) 0 then 1 else 0)) ∧
      ((0 : Nat) ∈ rampList (effectiveCurrent ⟨1, 3⟩) 0 ↔
        (0 : Nat) = 0 ∧ effectiveCurrent ⟨1, 3⟩ ≠ 0) ∧
      ((1 : Nat) ∈ rampList (effectiveCurrent ⟨1, 3⟩) 0 ↔
        (effectiveCurrent ⟨1, 3⟩ = 0 ∧ 1 ≤ 0) ∨
          ((0 : Nat) ≤ 1 ∧ 2 ≤ effectiveCurrent ⟨1, 3⟩)) ∧
      ledCmdsIssued (fadeTrace ⟨1, 3⟩ true 0) =
        (rampList (effectiveCurrent ⟨1, 3⟩) 0).filterMap (ledCmdFor true) ∧
      (∀ i f b, (fadeTrace ⟨1, 3⟩ true 0)[i]? = some (Cmd.setLed LedId.POWER f b) →
        (fadeTrace ⟨1, 3⟩ true 0)[i + 1]? =
          some (Cmd.setBacklight (if f = LedFlags.NONE then 0 else 1)))) :=
  ⟨by decide, by decide, C3_led_boundary ⟨1, 3⟩ true 0 (by decide) (by decide)⟩

/-! Helper lemmas about the control-loop step. -/

theorem loopBody_ok_mb (power active : Bool) (mb : Nat) (inp : IterInput)
    {st : LoopState} (h : (loopBody power active mb inp).2 = Except.ok st) :
    st.max_brightness = mb := by
  unfold loopBody at h
  split at h
  · split at h
    · split at h
      · simp only [Except.ok.injEq] at h
        rw [← h]
      · simp at h
      · simp at h
    · simp only [Except.ok.injEq] at h
      rw [← h]
  · split at h
    · simp only [Except.ok.injEq] at h
      rw [← h]
    · split at h
      · simp only [Except.ok.injEq] at h
        rw [← h]
      · simp at h
      · simp at h

theorem loopStep_active_persist (power : Bool) (s : LoopState) (inp : IterInput)
    (hact : s.active = true) (hok : inp.resampleOk = true) :
    loopStep power true s inp =
      (LoopEvent.ecCmd Cmd.get ::
          (loopBody power s.active inp.resampleResp.percent inp).1,
        (loopBody power s.active inp.resampleResp.percent inp).2) := by
  unfold loopStep
  rw [hact, hok]
  simp

theorem loopStep_no_resample (power persist : Bool) (s : LoopState)
    (inp : IterInput) (h : s.active = false ∨ persist = false) :
    loopStep power persist s inp = loopBody power s.active s.max_brightness inp := by
  unfold loopStep
  rcases h with h | h <;> rw [h] <;> simp

/-- C5 counterexample: while Active with `persist_brightness` set, a
`GetKeyboardBacklight` response with `enabled = 0` and `percent = 55` makes
the main loop store 55 into `max_brightness`, not 0: main.rs line 142 uses
`resp.percent` without consulting `resp.enabled`, so the claimed normalization
fails for the persist-brightness resampling. -/
theorem C5_counterexample :
    (loopStep false true ⟨true, 30⟩ ⟨true, true, ⟨0, 55⟩, allOk, ⟨0, 0⟩⟩).2 =
      Except.ok ⟨false, 55⟩ ∧ (55 : Nat) ≠ 0 := by
  constructor
  · rfl
  · decide

/-- C5 amended: `fade_to` treats `enabled = 0` as effective current 0
regardless of the reported percent — its behaviour on a disabled response with
any percent `p` equals its behaviour on a disabled response with percent `q` —
but the persist-brightness resampling in the main loop stores the raw reported
`percent` into `max_brightness` without consulting `enabled`. -/
theorem C5_disabled_normalization (p q : Nat) (ok : Nat → Bool) (power : Bool)
    (target : Nat) (s : LoopState) (inp : IterInput)
    (hact : s.active = true) (hok : inp.resampleOk = true) :
    effectiveCurrent ⟨0, p⟩ = 0 ∧
    fade_to ok ⟨0, p⟩ power target = fade_to ok ⟨0, q⟩ power target ∧
    (∀ evts st, loopStep power true s inp = (evts, Except.ok st) →
      st.max_brightness = inp.resampleResp.percent) := by
  refine ⟨rfl, ?_, ?_⟩
  · have heq : effectiveCurrent ⟨0, p⟩ = effectiveCurrent ⟨0, q⟩ := by
      simp [effectiveCurrent]
    rw [fade_to, fade_to, heq]
  · intro evts st h
    rw [loopStep_active_persist power s inp hact hok] at h
    have h2 : (loopBody power s.active inp.resampleResp.percent inp).2 =
        Except.ok st := congrArg Prod.snd h
    exact loopBody_ok_mb power s.active inp.resampleResp.percent inp h2

/-- C5 witness: the fade normalization at percents 77 and 0, and a concrete
Active persist iteration. -/
theorem C5_disabled_normalization_witness :
    (⟨true, 30⟩ : LoopState).active = true ∧
    (⟨false, true, ⟨0, 77⟩, allOk, ⟨1, 5⟩⟩ : IterInput).resampleOk = true ∧
    (effectiveCurrent ⟨0, 77⟩ = 0 ∧
      fade_to allOk ⟨0, 77⟩ false 4 = fade_to allOk ⟨0, 0⟩ false 4 ∧
      (∀ evts st,
        loopStep false true ⟨true, 30⟩ ⟨false, true, ⟨0, 77⟩, allOk, ⟨1, 5⟩⟩ =
          (evts, Except.ok st) →
        st.max_brightness =
          (⟨false, true, ⟨0, 77⟩, allOk, ⟨1, 5⟩⟩ : IterInput).resampleResp.percent)) :=
  ⟨by decide, by decide,
    C5_disabled_normalization 77 0 allOk false 4 ⟨true, 30⟩
      ⟨false, true, ⟨0, 77⟩, allOk, ⟨1, 5⟩⟩ (by decide) (by decide)⟩

/-! Error bookkeeping of the fade loop: an aborted run stops at the first
failing command. -/

theorem fadeLoop_err_char (ok : Nat → Bool) (power : Bool) (target : Nat) :
    ∀ fuel cur idx tr i,
      fadeLoop ok power target fuel cur idx = (tr, FadeResult.err i) →
      idx + tr.length = i + 1 ∧ ok i = false ∧
        (∀ j, idx ≤ j → j < i → ok j = true) := by
  intro fuel
  induction fuel with
  | zero =>
    intro cur idx tr i h
    simp only [fadeLoop] at h
    split at h <;> simp at h
  | succ f ih =>
    intro cur idx tr i h
    by_cases hct : cur = target
    · subst hct
      rw [fadeLoop_at_target] at h
      simp at h
    · simp only [fadeLoop, if_neg hct] at h
      generalize hcv : (if target < cur then (cur + 255) % 256 else (cur + 1) % 256) = cv at h
      cases hl : ledCmdFor power cv with
      | none =>
        rw [hl] at h
        cases hok : ok idx with
        | false =>
          rw [hok] at h
          simp only [Bool.false_eq_true, if_false, Prod.mk.injEq,
            FadeResult.err.injEq] at h
          obtain ⟨h1, h2⟩ := h
          subst h2
          refine ⟨by rw [← h1]; rfl, hok, ?_⟩
          intro j hj1 hj2
          omega
        | true =>
          rw [hok] at h
          simp only [if_true] at h
          rcases hrec : fadeLoop ok power target f cv (idx + 1) with ⟨rtr, rres⟩
          rw [hrec] at h
          simp only [Prod.mk.injEq] at h
          obtain ⟨h1, h2⟩ := h
          subst h2
          obtain ⟨ih1, ih2, ih3⟩ := ih cv (idx + 1) rtr i hrec
          refine ⟨by rw [← h1]; simp only [List.length_cons]; omega, ih2, ?_⟩
          intro j hj1 hj2
          rcases Nat.eq_or_lt_of_le hj1 with he | hlt
          · rw [← he]
            exact hok
          · exact ih3 j hlt hj2
      | some led =>
        rw [hl] at h
        cases hok : ok idx with
        | false =>
          rw [hok] at h
          simp only [Bool.false_eq_true, if_false, Prod.mk.injEq,
            FadeResult.err.injEq] at h
          obtain ⟨h1, h2⟩ := h
          subst h2
          refine ⟨by rw [← h1]; rfl, hok, ?_⟩
          intro j hj1 hj2
          omega
        | true =>
          rw [hok] at h
          simp only [if_true] at h
          cases hok2 : ok (idx + 1) with
          | false =>
            rw [hok2] at h
            simp only [Bool.false_eq_true, if_false, Prod.mk.injEq,
              FadeResult.err.injEq] at h
            obtain ⟨h1, h2⟩ := h
            subst h2
            refine ⟨by rw [← h1]; rfl, hok2, ?_⟩
            intro j hj1 hj2
            have hj : j = idx := by omega
            rw [hj]
            exact hok
          | true =>
            rw [hok2] at h
            simp only [if_true] at h
            rcases hrec : fadeLoop ok power target f cv (idx + 2) with ⟨rtr, rres⟩
            rw [hrec] at h
            simp only [Prod.mk.injEq] at h
            obtain ⟨h1, h2⟩ := h
            subst h2
            obtain ⟨ih1, ih2, ih3⟩ := ih cv (idx + 2) rtr i hrec
            refine ⟨by rw [← h1]; simp only [List.length_cons]; omega, ih2, ?_⟩
            intro j hj1 hj2
            rcases Nat.lt_or_ge j (idx + 2) with hlt | hge
            · rcases Nat.eq_or_lt_of_le hj1 with he | hlt2
              · rw [← he]
                exact hok
              · have hj : j = idx + 1 := by omega
                rw [hj]
                exact hok2
            · exact ih3 j hge hj2

theorem fadeLoop_ok_char (ok : Nat → Bool) (power : Bool) (target : Nat) :
    ∀ fuel cur idx tr,
      fadeLoop ok power target fuel cur idx = (tr, FadeResult.ok) →
      ∀ j, idx ≤ j → j < idx + tr.length → ok j = true := by
  intro fuel
  induction fuel with
  | zero =>
    intro cur idx tr h
    simp only [fadeLoop] at h
    split at h <;> simp only [Prod.mk.injEq] at h
    · obtain ⟨h1, _⟩ := h
      subst h1
      intro j hj1 hj2
      simp only [List.length_nil] at hj2
      omega
    · simp at h
  | succ f ih =>
    intro cur idx tr h
    by_cases hct : cur = target
    · subst hct
      rw [fadeLoop_at_target] at h
      simp only [Prod.mk.injEq] at h
      obtain ⟨h1, _⟩ := h
      subst h1
      intro j hj1 hj2
      simp only [List.length_nil] at hj2
      omega
    · simp only [fadeLoop, if_neg hct] at h
      generalize hcv : (if target < cur then (cur + 255) % 256 else (cur + 1) % 256) = cv at h
      cases hl : ledCmdFor power cv with
      | none =>
        rw [hl] at h
        cases hok : ok idx with
        | false =>
          rw [hok] at h
          simp at h
        | true =>
          rw [hok] at h
          simp only [if_true] at h
          rcases hrec : fadeLoop ok power target f cv (idx + 1) with ⟨rtr, rres⟩
          rw [hrec] at h
          simp only [Prod.mk.injEq] at h
          obtain ⟨h1, h2⟩ := h
          subst h2
          intro j hj1 hj2
          rcases Nat.eq_or_lt_of_le hj1 with he | hlt
          · rw [← he]
            exact hok
          · refine ih cv (idx + 1) rtr hrec j hlt ?_
            rw [← h1] at hj2
            simp only [List.length_cons] at hj2
            omega
      | some led =>
        rw [hl] at h
        cases hok : ok idx with
        | false =>
          rw [hok] at h
          simp at h
        | true =>
          rw [hok] at h
          simp only [if_true] at h
          cases hok2 : ok (idx + 1) with
          | false =>
            rw [hok2] at h
            simp at h
          | true =>
            rw [hok2] at h
            simp only [if_true] at h
            rcases hrec : fadeLoop ok power target f cv (idx + 2) with ⟨rtr, rres⟩
            rw [hrec] at h
            simp only [Prod.mk.injEq] at h
            obtain ⟨h1, h2⟩ := h
            subst h2
            intro j hj1 hj2
            rcases Nat.lt_or_ge j (idx + 2) with hlt | hge
            · rcases Nat.eq_or_lt_of_le hj1 with he | hlt2
              · rw [← he]
                exact hok
              · have hj : j = idx + 1 := by omega
                rw [hj]
                exact hok2
            · refine ih cv (idx + 2) rtr hrec j hge ?_
              rw [← h1] at hj2
              simp only [List.length_cons] at hj2
              omega

theorem fade_to_err_char (ok : Nat → Bool) (resp : KeyboardBacklightResp)
    (power : Bool) (target : Nat) (tr : List Cmd) (i : Nat)
    (h : fade_to ok resp power target = (tr, FadeResult.err i)) :
    tr.length = i + 1 ∧ ok i = false ∧ (∀ j, j < i → ok j = true) := by
  unfold fade_to at h
  cases hok : ok 0 with
  | false =>
    rw [hok] at h
    simp only [Bool.false_eq_true, if_false, Prod.mk.injEq,
      FadeResult.err.injEq] at h
    obtain ⟨h1, h2⟩ := h
    subst h2
    refine ⟨by rw [← h1]; rfl, hok, ?_⟩
    intro j hj
    omega
  | true =>
    rw [hok] at h
    simp only [if_true] at h
    rcases hrec : fadeLoop ok power target 256 (effectiveCurrent resp) 1 with ⟨rtr, rres⟩
    rw [hrec] at h
    simp only [Prod.mk.injEq] at h
    obtain ⟨h1, h2⟩ := h
    subst h2
    obtain ⟨e1, e2, e3⟩ := fadeLoop_err_char ok power target 256 (effectiveCurrent resp) 1 rtr i hrec
    refine ⟨by rw [← h1]; simp only [List.length_cons]; omega, e2, ?_⟩
    intro j hj
    rcases Nat.eq_zero_or_pos j with hj0 | hjp
    · rw [hj0]
      exact hok
    · exact e3 j (by omega) hj

theorem fade_to_ok_char (ok : Nat → Bool) (resp : KeyboardBacklightResp)
    (power : Bool) (target : Nat) (tr : List Cmd)
    (h : fade_to ok resp power target = (tr, FadeResult.ok)) :
    ∀ j, j < tr.length → ok j = true := by
  unfold fade_to at h
  cases hok : ok 0 with
  | false =>
    rw [hok] at h
    simp at h
  | true =>
    rw [hok] at h
    simp only [if_true] at h
    rcases hrec : fadeLoop ok power target 256 (effectiveCurrent resp) 1 with ⟨rtr, rres⟩
    rw [hrec] at h
    simp only [Prod.mk.injEq] at h
    obtain ⟨h1, h2⟩ := h
    subst h2
    intro j hj
    rcases Nat.eq_zero_or_pos j with hj0 | hjp
    · rw [hj0]
      exact hok
    · refine fadeLoop_ok_char ok power target 256 (effectiveCurrent resp) 1 rtr hrec j hjp ?_
      rw [← h1] at hj
      simp only [List.length_cons] at hj
      omega

/-- C6: if any EC command issued inside `fade_to` fails, `fade_to` returns
that error immediately without issuing any further EC command — the trace
stops at the failing command (length `i + 1` for a failure at command index
`i`, every earlier command having succeeded), and a successful fade implies
every issued command succeeded — and the main control loop propagates the
error to its caller without retrying: the iteration ends with the failed
`fade_to` call as its last event and surfaces `LoopError.fade i`, issuing no
further command and in particular no second fade, in both the fade-down and
the fade-up case. -/
theorem C6_error_abort :
    (∀ ok resp power target tr i,
      fade_to ok resp power target = (tr, FadeResult.err i) →
      tr.length = i + 1 ∧ ok i = false ∧ (∀ j, j < i → ok j = true)) ∧
    (∀ ok resp power target tr,
      fade_to ok resp power target = (tr, FadeResult.ok) →
      ∀ j, j < tr.length → ok j = true) ∧
    (∀ power persist s inp tr i, s.active = true → inp.eventsEmpty = true →
      inp.resampleOk = true →
      fade_to inp.fadeOk inp.fadeResp power 0 = (tr, FadeResult.err i) →
      loopStep power persist s inp =
        ((if persist then [LoopEvent.ecCmd Cmd.get] else []) ++
          [LoopEvent.fadeCall power 0 tr (FadeResult.err i)],
          Except.error (LoopError.fade i))) ∧
    (∀ power persist s inp tr i, s.active = false → inp.eventsEmpty = false →
      fade_to inp.fadeOk inp.fadeResp power s.max_brightness = (tr, FadeResult.err i) →
      loopStep power persist s inp =
        ([LoopEvent.fadeCall power s.max_brightness tr (FadeResult.err i)],
          Except.error (LoopError.fade i))) := by
  refine ⟨fade_to_err_char, fade_to_ok_char, ?_, ?_⟩
  · intro power persist s inp tr i hact hempty hres hfade
    by_cases hp : persist = true
    · subst hp
      rw [loopStep_active_persist power s inp hact hres]
      unfold loopBody
      rw [hempty, hact, hfade]
      simp
    · have hp' : persist = false := by revert hp; cases persist <;> simp
      subst hp'
      rw [loopStep_no_resample power false s inp (Or.inr rfl)]
      unfold loopBody
      rw [hempty, hact, hfade]
      simp
  · intro power persist s inp tr i hact hempty hfade
    rw [loopStep_no_resample power persist s inp (Or.inl hact)]
    unfold loopBody
    rw [hempty, hact, hfade]
    simp

/-- C6 witness: under an oracle whose third command fails, a fade from 5 to 0
issues exactly the three commands up to and including the failing one and
aborts with its index. -/
theorem C6_error_abort_witness :
    (fade_to failAfterTwo ⟨1, 5⟩ false 0 =
      ([Cmd.get, Cmd.setBacklight 4, Cmd.setBacklight 3], FadeResult.err 2)) ∧
    (([Cmd.get, Cmd.setBacklight 4, Cmd.setBacklight 3] : List Cmd).length = 2 + 1 ∧
      failAfterTwo 2 = false ∧ (∀ j, j < 2 → failAfterTwo j = true)) :=
  ⟨by decide,
    C6_error_abort.1 failAfterTwo ⟨1, 5⟩ false 0
      [Cmd.get, Cmd.setBacklight 4, Cmd.setBacklight 3] 2 (by decide)⟩

/-- C2: the control loop starts Idle (`active = false`); for every iteration
in which all issued EC commands succeed: activity observed while Idle triggers
exactly one `fade_to` call, with target `max_brightness`, and transitions to
Active; a timeout with no activity while Active triggers exactly one `fade_to`
call with target 0 and transitions to Idle; activity while already Active
triggers no fade call and stays Active; a timeout while Idle triggers no fade
call and leaves the state unchanged. -/
theorem C2_state_machine (power persist : Bool) (b : Nat) (s : LoopState)
    (inp : IterInput) (hfo : inp.fadeOk = allOk) (hro : inp.resampleOk = true)
    (hfc : effectiveCurrent inp.fadeResp < 256) (hmb : s.max_brightness < 256) :
    (initialLoopState b).active = false ∧
    (s.active = false → inp.eventsEmpty = false →
      fadeTargets (loopStep power persist s inp).1 = [s.max_brightness] ∧
      (loopStep power persist s inp).2 = Except.ok ⟨true, s.max_brightness⟩) ∧
    (s.active = true → inp.eventsEmpty = true →
      fadeTargets (loopStep power persist s inp).1 = [0] ∧
      ∃ st, (loopStep power persist s inp).2 = Except.ok st ∧ st.active = false) ∧
    (s.active = true → inp.eventsEmpty = false →
      fadeTargets (loopStep power persist s inp).1 = [] ∧
      ∃ st, (loopStep power persist s inp).2 = Except.ok st ∧ st.active = true) ∧
    (s.active = false → inp.eventsEmpty = true →
      fadeTargets (loopStep power persist s inp).1 = [] ∧
      (loopStep power persist s inp).2 = Except.ok s) := by
  have hf0 : fade_to inp.fadeOk inp.fadeResp power 0 =
      (Cmd.get :: (rampList (effectiveCurrent inp.fadeResp) 0).flatMap (stepCmds power),
        FadeResult.ok) := by
    rw [hfo]
    exact fade_to_allOk inp.fadeResp power 0 hfc (by omega)
  have hfmb : fade_to inp.fadeOk inp.fadeResp power s.max_brightness =
      (Cmd.get ::
          (rampList (effectiveCurrent inp.fadeResp) s.max_brightness).flatMap
            (stepCmds power),
        FadeResult.ok) := by
    rw [hfo]
    exact fade_to_allOk inp.fadeResp power s.max_brightness hfc hmb
  refine ⟨rfl, ?_, ?_, ?_, ?_⟩
  · intro ha he
    rw [loopStep_no_resample power persist s inp (Or.inl ha)]
    unfold loopBody
    rw [he, ha, hfmb]
    simp [fadeTargets]
  · intro ha he
    by_cases hp : persist = true
    · subst hp
      rw [loopStep_active_persist power s inp ha hro]
      unfold loopBody
      rw [he, ha, hf0]
      refine ⟨by simp [fadeTargets], ⟨false, inp.resampleResp.percent⟩, by simp, rfl⟩
    · have hp' : persist = false := by revert hp; cases persist <;> simp
      subst hp'
      rw [loopStep_no_resample power false s inp (Or.inr rfl)]
      unfold loopBody
      rw [he, ha, hf0]
      refine ⟨by simp [fadeTargets], ⟨false, s.max_brightness⟩, by simp, rfl⟩
  · intro ha he
    by_cases hp : persist = true
    · subst hp
      rw [loopStep_active_persist power s inp ha hro]
      unfold loopBody
      rw [he, ha]
      refine ⟨by simp [fadeTargets], ⟨true, inp.resampleResp.percent⟩, by simp, rfl⟩
    · have hp' : persist = false := by revert hp; cases persist <;> simp
      subst hp'
      rw [loopStep_no_resample power false s inp (Or.inr rfl)]
      unfold loopBody
      rw [he, ha]
      refine ⟨by simp [fadeTargets], ⟨true, s.max_brightness⟩, by simp, rfl⟩
  · intro ha he
    rw [loopStep_no_resample power persist s inp (Or.inl ha)]
    unfold loopBody
    rw [he, ha]
    refine ⟨by simp [fadeTargets], ?_⟩
    show Except.ok ⟨false, s.max_brightness⟩ = Except.ok s
    rw [← ha]

/-- C2 witness: a concrete Idle iteration that observes activity. -/
theorem C2_state_machine_witness :
    (⟨false, true, ⟨1, 10⟩, allOk, ⟨1, 0⟩⟩ : IterInput).fadeOk = allOk ∧
    (⟨false, true, ⟨1, 10⟩, allOk, ⟨1, 0⟩⟩ : IterInput).resampleOk = true ∧
    ((initialLoopState 30).active = false ∧
      ((⟨false, 30⟩ : LoopState).active = false →
        (⟨false, true, ⟨1, 10⟩, allOk, ⟨1, 0⟩⟩ : IterInput).eventsEmpty = false →
        fadeTargets
            (loopStep false false ⟨false, 30⟩ ⟨false, true, ⟨1, 10⟩, allOk, ⟨1, 0⟩⟩).1 =
          [(⟨false, 30⟩ : LoopState).max_brightness] ∧
        (loopStep false false ⟨false, 30⟩ ⟨false, true, ⟨1, 10⟩, allOk, ⟨1, 0⟩⟩).2 =
          Except.ok ⟨true, (⟨false, 30⟩ : LoopState).max_brightness⟩) ∧
      ((⟨false, 30⟩ : LoopState).active = true →
        (⟨false, true, ⟨1, 10⟩, allOk, ⟨1, 0⟩⟩ : IterInput).eventsEmpty = true →
        fadeTargets
            (loopStep false false ⟨false, 30⟩ ⟨false, true, ⟨1, 10⟩, allOk, ⟨1, 0⟩⟩).1 =
          [0] ∧
        ∃ st,
          (loopStep false false ⟨false, 30⟩ ⟨false, true, ⟨1, 10⟩, allOk, ⟨1, 0⟩⟩).2 =
            Except.ok st ∧ st.active = false) ∧
      ((⟨false, 30⟩ : LoopState).active = true →
        (⟨false, true, ⟨1, 10⟩, allOk, ⟨1, 0⟩⟩ : IterInput).eventsEmpty = false →
        fadeTargets
            (loopStep false false ⟨false, 30⟩ ⟨false, true, ⟨1, 10⟩, allOk, ⟨1, 0⟩⟩).1 =
          [] ∧
        ∃ st,
          (loopStep false false ⟨false, 30⟩ ⟨false, true, ⟨1, 10⟩, allOk, ⟨1, 0⟩⟩).2 =
            Except.ok st ∧ st.active = true) ∧
      ((⟨false, 30⟩ : LoopState).active = false →
        (⟨false, true, ⟨1, 10⟩, allOk, ⟨1, 0⟩⟩ : IterInput).eventsEmpty = true →
        fadeTargets
            (loopStep false false ⟨false, 30⟩ ⟨false, true, ⟨1, 10⟩, allOk, ⟨1, 0⟩⟩).1 =
          [] ∧
        (loopStep false false ⟨false, 30⟩ ⟨false, true, ⟨1, 10⟩, allOk, ⟨1, 0⟩⟩).2 =
          Except.ok ⟨false, 30⟩)) :=
  ⟨rfl, rfl,
    C2_state_machine false false 30 ⟨false, 30⟩ ⟨false, true, ⟨1, 10⟩, allOk, ⟨1, 0⟩⟩
      rfl rfl (by decide) (by decide)⟩

/-- C8: when `persist_brightness` is enabled, every poll tick taken while
Active first issues the live-state read (the iteration's first event) and
stores the reported percent into `max_brightness` before handling the tick;
when Idle or when `persist_brightness` is disabled, `max_brightness` is never
changed; and the Idle-to-Active fade targets the carried `max_brightness`
value — which, by the first part, is the most recently resampled percent when
a persist resample has happened. -/
theorem C8_persist_resample (power : Bool) (s : LoopState) (inp : IterInput)
    (hro : inp.resampleOk = true) (hfo : inp.fadeOk = allOk)
    (hfc : effectiveCurrent inp.fadeResp < 256) (hmb : s.max_brightness < 256) :
    (s.active = true →
      (loopStep power true s inp).1.head? = some (LoopEvent.ecCmd Cmd.get) ∧
      (∀ st, (loopStep power true s inp).2 = Except.ok st →
        st.max_brightness = inp.resampleResp.percent)) ∧
    (∀ persist, s.active = false ∨ persist = false →
      ∀ st, (loopStep power persist s inp).2 = Except.ok st →
        st.max_brightness = s.max_brightness) ∧
    (s.active = false → inp.eventsEmpty = false →
      fadeTargets (loopStep power true s inp).1 = [s.max_brightness]) := by
  refine ⟨?_, ?_, ?_⟩
  · intro ha
    rw [loopStep_active_persist power s inp ha hro]
    refine ⟨rfl, ?_⟩
    intro st hst
    exact loopBody_ok_mb power s.active inp.resampleResp.percent inp hst
  · intro persist h st hst
    rw [loopStep_no_resample power persist s inp h] at hst
    exact loopBody_ok_mb power s.active s.max_brightness inp hst
  · intro ha he
    rw [loopStep_no_resample power true s inp (Or.inl ha)]
    have hfmb : fade_to inp.fadeOk inp.fadeResp power s.max_brightness =
        (Cmd.get ::
            (rampList (effectiveCurrent inp.fadeResp) s.max_brightness).flatMap
              (stepCmds power),
          FadeResult.ok) := by
      rw [hfo]
      exact fade_to_allOk inp.fadeResp power s.max_brightness hfc hmb
    unfold loopBody
    rw [he, ha, hfmb]
    simp [fadeTargets]

/-- C8 witness: a concrete Active persist tick whose live read reports 42. -/
theorem C8_persist_resample_witness :
    (⟨false, true, ⟨1, 42⟩, allOk, ⟨1, 0⟩⟩ : IterInput).resampleOk = true ∧
    (⟨false, true, ⟨1, 42⟩, allOk, ⟨1, 0⟩⟩ : IterInput).fadeOk = allOk ∧
    (((⟨true, 20⟩ : LoopState).active = true →
      (loopStep false true ⟨true, 20⟩ ⟨false, true, ⟨1, 42⟩, allOk, ⟨1, 0⟩⟩).1.head? =
        some (LoopEvent.ecCmd Cmd.get) ∧
      (∀ st,
        (loopStep false true ⟨true, 20⟩ ⟨false, true, ⟨1, 42⟩, allOk, ⟨1, 0⟩⟩).2 =
          Except.ok st →
        st.max_brightness =
          (⟨false, true, ⟨1, 42⟩, allOk, ⟨1, 0⟩⟩ : IterInput).resampleResp.percent)) ∧
    (∀ persist, (⟨true, 20⟩ : LoopState).active = false ∨ persist = false →
      ∀ st,
        (loopStep false persist ⟨true, 20⟩ ⟨false, true, ⟨1, 42⟩, allOk, ⟨1, 0⟩⟩).2 =
          Except.ok st →
        st.max_brightness = (⟨true, 20⟩ : LoopState).max_brightness) ∧
    ((⟨true, 20⟩ : LoopState).active = false →
      (⟨false, true, ⟨1, 42⟩, allOk, ⟨1, 0⟩⟩ : IterInput).eventsEmpty = false →
      fadeTargets
          (loopStep false true ⟨true, 20⟩ ⟨false, true, ⟨1, 42⟩, allOk, ⟨1, 0⟩⟩).1 =
        [(⟨true, 20⟩ : LoopState).max_brightness])) :=
  ⟨rfl, rfl,
    C8_persist_resample false ⟨true, 20⟩ ⟨false, true, ⟨1, 42⟩, allOk, ⟨1, 0⟩⟩
      rfl rfl (by decide) (by decide)⟩

/-- C10: on every loop iteration that observes activity (and whose issued
commands all succeed), the controller sleeps 500 ms as the iteration's last
event — including the iteration performing the Idle-to-Active fade-up —
while iterations that time out with no activity never sleep. -/
theorem C10_sleep_on_activity (power persist : Bool) (s : LoopState)
    (inp : IterInput) (hro : inp.resampleOk = true) (hfo : inp.fadeOk = allOk)
    (hfc : effectiveCurrent inp.fadeResp < 256) (hmb : s.max_brightness < 256) :
    (inp.eventsEmpty = true →
      LoopEvent.sleepMs 500 ∉ (loopStep power persist s inp).1) ∧
    (inp.eventsEmpty = false →
      (loopStep power persist s inp).1.getLast? = some (LoopEvent.sleepMs 500)) := by
  have hf0 : fade_to inp.fadeOk inp.fadeResp power 0 =
      (Cmd.get :: (rampList (effectiveCurrent inp.fadeResp) 0).flatMap (stepCmds power),
        FadeResult.ok) := by
    rw [hfo]
    exact fade_to_allOk inp.fadeResp power 0 hfc (by omega)
  have hfmb : fade_to inp.fadeOk inp.fadeResp power s.max_brightness =
      (Cmd.get ::
          (rampList (effectiveCurrent inp.fadeResp) s.max_brightness).flatMap
            (stepCmds power),
        FadeResult.ok) := by
    rw [hfo]
    exact fade_to_allOk inp.fadeResp power s.max_brightness hfc hmb
  constructor
  · intro he
    cases ha : s.active with
    | false =>
      rw [loopStep_no_resample power persist s inp (Or.inl ha)]
      unfold loopBody
      rw [he, ha]
      simp
    | true =>
      by_cases hp : persist = true
      · subst hp
        rw [loopStep_active_persist power s inp ha hro]
        unfold loopBody
        rw [he, ha, hf0]
        simp
      · have hp' : persist = false := by revert hp; cases persist <;> simp
        subst hp'
        rw [loopStep_no_resample power false s inp (Or.inr rfl)]
        unfold loopBody
        rw [he, ha, hf0]
        simp
  · intro he
    cases ha : s.active with
    | false =>
      rw [loopStep_no_resample power persist s inp (Or.inl ha)]
      unfold loopBody
      rw [he, ha, hfmb]
      simp
    | true =>
      by_cases hp : persist = true
      · subst hp
        rw [loopStep_active_persist power s inp ha hro]
        unfold loopBody
        rw [he, ha]
        simp
      · have hp' : persist = false := by revert hp; cases persist <;> simp
        subst hp'
        rw [loopStep_no_resample power false s inp (Or.inr rfl)]
        unfold loopBody
        rw [he, ha]
        simp

/-- C10 witness: a concrete Idle iteration observing activity, which fades up
and then sleeps, and whose timeout counterpart never sleeps. -/
theorem C10_sleep_on_activity_witness :
    (⟨false, true, ⟨1, 25⟩, allOk, ⟨1, 25⟩⟩ : IterInput).resampleOk = true ∧
    (⟨false, true, ⟨1, 25⟩, allOk, ⟨1, 25⟩⟩ : IterInput).fadeOk = allOk ∧
    (((⟨false, true, ⟨1, 25⟩, allOk, ⟨1, 25⟩⟩ : IterInput).eventsEmpty = true →
      LoopEvent.sleepMs 500 ∉
        (loopStep false false ⟨false, 25⟩
          ⟨false, true, ⟨1, 25⟩, allOk, ⟨1, 25⟩⟩).1) ∧
    ((⟨false, true, ⟨1, 25⟩, allOk, ⟨1, 25⟩⟩ : IterInput).eventsEmpty = false →
      (loopStep false false ⟨false, 25⟩
          ⟨false, true, ⟨1, 25⟩, allOk, ⟨1, 25⟩⟩).1.getLast? =
        some (LoopEvent.sleepMs 500))) :=
  ⟨rfl, rfl,
    C10_sleep_on_activity false false ⟨false, 25⟩
      ⟨false, true, ⟨1, 25⟩, allOk, ⟨1, 25⟩⟩ rfl rfl (by decide) (by decide)⟩

end Keylightd
